import Mathlib

/-!
# Verification of the teams-mcp-server core (Bot Connector variant, v0.2.0)

Shallow embedding of the two core components of the repository:

* the Bot Connector token broker (`getBotConnectorToken` in `index.ts`),
  modelled as a pure function over an explicit cache, environment values and
  the response the token endpoint would produce for the exchange request;

* the zod schemas of `schemas.ts` (`AdaptiveCardSchema`,
  `PostRichMessageRequestSchema` and their sub-schemas), modelled as
  recursive-descent validators over a JSON value type, mirroring the zod
  behaviour: issues are collected across object keys, unions try their
  options in declaration order and return the first success, unknown keys
  are stripped, `.optional()` fields may be absent, `.default` fills a
  missing value, and `.refine` runs only after the base object parses.

The thread-resolution helpers (`resolveThreadContext`, the activity URL
construction in `sendActivity`) are embedded as pure string functions.
-/

namespace TeamsMcp

/-! ## JavaScript string truthiness

`process.env` values and optional string arguments are `string | undefined`
in the source; `undefined` and `""` are falsy.  They are modelled as
`Option String`. -/

/-- JS falsiness of a `string | undefined` value: `undefined` and `""`. -/
def jsFalsy : Option String → Bool
  | none => true
  | some s => s = ""

/-- JS truthiness of a `string | undefined` value. -/
def jsTruthy (o : Option String) : Bool := !(jsFalsy o)

/-- JS `a || b` on `string | undefined` values (used for
`argsThreadId || configThreadId` in `resolveThreadContext`). -/
def jsOrStr (a b : Option String) : Option String :=
  if jsTruthy a then a else b

/-! ## Token broker (`getBotConnectorToken`)

The source keeps a module-level `tokenCache : { token; expiresAt } | null`
and reads `TEAMS_BOT_APP_ID` / `TEAMS_BOT_APP_PASSWORD`.  The network call
is modelled by passing in the response the token endpoint would return. -/

/-- The module-level token cache entry: `{ token: string; expiresAt: number }`
(`expiresAt` in milliseconds since the epoch). -/
structure TokenCache where
  token : String
  expiresAt : Int
  deriving DecidableEq, Repr

/-- The response of the token endpoint, as seen by `getBotConnectorToken`:
either a non-ok HTTP status with the response text, an ok response whose
body fails `response.json()`, or an ok JSON body with an optional token
string field and an optional numeric `expires_in` field (`none` models a
missing or non-conforming field). -/
inductive TokenHttpResponse where
  | failure (status : Nat) (body : String)
  | okUnparseable
  | okParsed (access_token : Option String) (expires_in : Option Int)
  deriving DecidableEq, Repr

/-- The distinct `throw` sites of `getBotConnectorToken`.
`missingCredentials` is the missing-env-var throw; `tokenRequestFailed`
carries the HTTP status (interpolated into the thrown message) and the
response text (read and reported via the diagnostic log);
`invalidTokenResponse true` is the `response.json()` catch,
`invalidTokenResponse false` the missing `access_token` / non-numeric
`expires_in` check — the spec groups both as `AuthError::InvalidTokenResponse`. -/
inductive TokenError where
  | missingCredentials
  | tokenRequestFailed (status : Nat) (body : String)
  | invalidTokenResponse (parseFailed : Bool)
  deriving DecidableEq, Repr

instance {ε α : Type} [DecidableEq ε] [DecidableEq α] :
    DecidableEq (Except ε α) := fun a b =>
  match a, b with
  | .error e, .error f => decidable_of_iff (e = f) (by simp)
  | .error _, .ok _ => isFalse (by simp)
  | .ok _, .error _ => isFalse (by simp)
  | .ok a, .ok b => decidable_of_iff (a = b) (by simp)

/-- Everything one call to `getBotConnectorToken` does: its result, the
token cache it leaves behind, how many token-exchange network calls it
performed, and the URL it fetched (if any). -/
structure TokenOutcome where
  result : Except TokenError String
  cache : Option TokenCache
  calls : Nat
  urlCalled : Option String
  deriving DecidableEq, Repr

/-- The token endpoint used by the source: a string constant — the code
never consults `TEAMS_BOT_TENANT_ID`. -/
def tokenUrl : String :=
  "https://login.microsoftonline.com/botframework.com/oauth2/v2.0/token"

/-- Modelled from the spec: the token endpoint the spec describes, with the
configured tenant identifier substituted for the default multi-tenant
segment.  (The source has no corresponding code; `tokenUrl` above is what
it actually uses.) -/
def specTokenUrl (tenant : Option String) : String :=
  "https://login.microsoftonline.com/" ++ tenant.getD "botframework.com"
    ++ "/oauth2/v2.0/token"

/-- The part of `getBotConnectorToken` after the cache check: credentials
check, then the token-exchange fetch against `tokenUrl`. -/
def tokenExchange (now : Int) (cache : Option TokenCache)
    (appId appPassword : Option String) (resp : TokenHttpResponse) :
    TokenOutcome :=
  if jsFalsy appId || jsFalsy appPassword then
    ⟨.error .missingCredentials, cache, 0, none⟩
  else
    match resp with
    | .failure status body =>
        ⟨.error (.tokenRequestFailed status body), cache, 1, some tokenUrl⟩
    | .okUnparseable =>
        ⟨.error (.invalidTokenResponse true), cache, 1, some tokenUrl⟩
    | .okParsed tok exp =>
        match tok, exp with
        | some t, some e =>
            if t = "" then
              ⟨.error (.invalidTokenResponse false), cache, 1, some tokenUrl⟩
            else
              ⟨.ok t, some ⟨t, now + e * 1000⟩, 1, some tokenUrl⟩
        | _, _ =>
            ⟨.error (.invalidTokenResponse false), cache, 1, some tokenUrl⟩

/-- `getBotConnectorToken`: return the cached token while its expiry is
more than five minutes away, otherwise run the exchange. -/
def getBotConnectorToken (now : Int) (cache : Option TokenCache)
    (appId appPassword : Option String) (resp : TokenHttpResponse) :
    TokenOutcome :=
  match cache with
  | some tc =>
      if now + 5 * 60 * 1000 < tc.expiresAt then
        ⟨.ok tc.token, some tc, 0, none⟩
      else tokenExchange now cache appId appPassword resp
  | none => tokenExchange now cache appId appPassword resp

/-- The cache-hit condition of `getBotConnectorToken`
(`tokenCache && tokenCache.expiresAt > now + 5 * 60 * 1000`). -/
def cacheFresh (now : Int) (cache : Option TokenCache) : Bool :=
  match cache with
  | some tc => decide (now + 5 * 60 * 1000 < tc.expiresAt)
  | none => false

/-! ## Thread resolution and the activity URL (`resolveThreadContext`,
`sendActivity`) -/

/-- The `messageType` parameter of `resolveThreadContext`. -/
inductive MessageType where
  | message
  | rich
  deriving DecidableEq, Repr

/-- The record returned by `resolveThreadContext`. -/
structure ThreadContext where
  replyToId : Option String
  actionType : String
  deriving DecidableEq, Repr

/-- `resolveThreadContext(argsThreadId, configThreadId, messageType)`. -/
def resolveThreadContext (argsThreadId configThreadId : Option String)
    (messageType : MessageType) : ThreadContext :=
  let replyToId := jsOrStr argsThreadId configThreadId
  let actionType :=
    if jsTruthy replyToId then "Reply sent to thread"
    else match messageType with
      | .rich => "Rich message posted"
      | .message => "Message posted"
  ⟨replyToId, actionType⟩

/-- One hexadecimal digit, uppercase (as produced by `encodeURIComponent`). -/
def hexDigit (n : Nat) : Char :=
  if n < 10 then Char.ofNat (48 + n) else Char.ofNat (55 + n)

/-- UTF-8 bytes of a Unicode code point. -/
def utf8Bytes (n : Nat) : List Nat :=
  if n < 0x80 then [n]
  else if n < 0x800 then [0xC0 + n / 64, 0x80 + n % 64]
  else if n < 0x10000 then
    [0xE0 + n / 4096, 0x80 + n / 64 % 64, 0x80 + n % 64]
  else
    [0xF0 + n / 262144, 0x80 + n / 4096 % 64, 0x80 + n / 64 % 64,
      0x80 + n % 64]

/-- Characters `encodeURIComponent` leaves unescaped. -/
def uriUnreserved (c : Char) : Bool :=
  c.isAlphanum || c = '-' || c = '_' || c = '.' || c = '!' || c = '~'
    || c = '*' || c = '\'' || c = '(' || c = ')'

/-- JS `encodeURIComponent`: percent-encode the UTF-8 bytes of every
character outside the unreserved set. -/
def encodeURIComponent (s : String) : String :=
  String.mk (s.toList.flatMap fun c =>
    if uriUnreserved c then [c]
    else (utf8Bytes c.toNat).flatMap fun b =>
      ['%', hexDigit (b / 16), hexDigit (b % 16)])

/-- The trailing-slash strip at the top of `sendActivity`. -/
def stripTrailingSlash (s : String) : String :=
  if s.endsWith "/" then s.dropRight 1 else s

/-- The URL `sendActivity` posts to: the thread-reply form when
`replyToId` is truthy, the new-activity form otherwise. -/
def activityUrl (serviceUrl conversationId : String)
    (replyToId : Option String) : String :=
  let baseUrl := stripTrailingSlash serviceUrl
  if jsTruthy replyToId then
    baseUrl ++ "/v3/conversations/" ++ encodeURIComponent conversationId
      ++ "/activities/" ++ encodeURIComponent (replyToId.getD "")
  else
    baseUrl ++ "/v3/conversations/" ++ encodeURIComponent conversationId
      ++ "/activities"

/-! ## JSON values and zod-style issues -/

/-- JSON-like values (the `unknown` input of the zod schemas).  A missing
object key is modelled by absence from the field list, matching the
`string | undefined` distinction of the source. -/
inductive Json where
  | null
  | str (s : String)
  | num (n : Int)
  | bool (b : Bool)
  | arr (elems : List Json)
  | obj (fields : List (String × Json))

/-- One step of a zod issue path: an object key or an array index. -/
inductive PathItem where
  | key (s : String)
  | idx (n : Nat)
  deriving DecidableEq, Repr

/-- A zod issue: a plain issue with a path and an issue code, or an
`invalid_union` issue carrying the issues of each failed union option. -/
inductive Issue where
  | simple (path : List PathItem) (code : String)
  | union (path : List PathItem) (branches : List (List Issue))

mutual

/-- Does an issue name the path `p` (looking inside union branches)? -/
def Issue.mentions (p : List PathItem) : Issue → Bool
  | .simple q _ => q = p
  | .union q bs => decide (q = p) || mentionsBranches p bs

/-- Does any issue of any branch name the path `p`? -/
def mentionsBranches (p : List PathItem) : List (List Issue) → Bool
  | [] => false
  | es :: rest => mentionsList p es || mentionsBranches p rest

/-- Does any issue in the list name the path `p`? -/
def mentionsList (p : List PathItem) : List Issue → Bool
  | [] => false
  | i :: rest => Issue.mentions p i || mentionsList p rest

end

/-- A validation failure names the path `p` when some issue (possibly
inside a union branch) has exactly that path. -/
def errNames (es : List Issue) (p : List PathItem) : Bool := mentionsList p es

/-- First-match lookup of an object key (JS object keys are unique). -/
def lookupField : List (String × Json) → String → Option Json
  | [], _ => none
  | (k', v) :: rest, k => if k' = k then some v else lookupField rest k

/-- Result of parsing one JSON value. -/
abbrev PRes := Except (List Issue) Json

/-- Contribution of one object field to the parsed (stripped) output. -/
abbrev FRes := Except (List Issue) (List (String × Json))

/-- Combine two field results, collecting the issues of both (zod object
parsing reports the issues of every failing key). -/
def mergeF : FRes → FRes → FRes
  | .error a, .error b => .error (a ++ b)
  | .error a, .ok _ => .error a
  | .ok _, .error b => .error b
  | .ok a, .ok b => .ok (a ++ b)

/-- Combine the result of one array element with the rest of the array,
collecting issues from every element. -/
def mergeL : PRes → Except (List Issue) (List Json) → Except (List Issue) (List Json)
  | .ok v, .ok vs => .ok (v :: vs)
  | .ok _, .error es => .error es
  | .error e, .ok _ => .error e
  | .error e, .error es => .error (e ++ es)

/-- A single `invalid_type` issue at `p` (the zod missing/mis-typed value). -/
def invalidType (p : List PathItem) : List Issue := [.simple p "invalid_type"]

/-- `z.literal(v)` at a required key. -/
def litField (p : List PathItem) (fs : List (String × Json)) (k v : String) :
    FRes :=
  match lookupField fs k with
  | some (.str s) =>
      if s = v then .ok [(k, .str s)]
      else .error [.simple (p ++ [.key k]) "invalid_literal"]
  | some _ => .error [.simple (p ++ [.key k]) "invalid_literal"]
  | none => .error [.simple (p ++ [.key k]) "invalid_literal"]

/-- `z.string()` at a required key. -/
def reqStrField (p : List PathItem) (fs : List (String × Json)) (k : String) :
    FRes :=
  match lookupField fs k with
  | some (.str s) => .ok [(k, .str s)]
  | some _ => .error (invalidType (p ++ [.key k]))
  | none => .error (invalidType (p ++ [.key k]))

/-- `z.string().optional()`. -/
def optStrField (p : List PathItem) (fs : List (String × Json)) (k : String) :
    FRes :=
  match lookupField fs k with
  | some (.str s) => .ok [(k, .str s)]
  | some _ => .error (invalidType (p ++ [.key k]))
  | none => .ok []

/-- `z.boolean().optional()`. -/
def optBoolField (p : List PathItem) (fs : List (String × Json)) (k : String) :
    FRes :=
  match lookupField fs k with
  | some (.bool b) => .ok [(k, .bool b)]
  | some _ => .error (invalidType (p ++ [.key k]))
  | none => .ok []

/-- `z.number().optional()`. -/
def optNumField (p : List PathItem) (fs : List (String × Json)) (k : String) :
    FRes :=
  match lookupField fs k with
  | some (.num n) => .ok [(k, .num n)]
  | some _ => .error (invalidType (p ++ [.key k]))
  | none => .ok []

/-- `z.enum([...]).optional()`. -/
def optEnumField (p : List PathItem) (fs : List (String × Json)) (k : String)
    (vals : List String) : FRes :=
  match lookupField fs k with
  | some (.str s) =>
      if vals.contains s then .ok [(k, .str s)]
      else .error [.simple (p ++ [.key k]) "invalid_enum_value"]
  | some _ => .error (invalidType (p ++ [.key k]))
  | none => .ok []

/-- `z.enum([...])` at a required key (`ActionSchema.type`). -/
def reqEnumField (p : List PathItem) (fs : List (String × Json)) (k : String)
    (vals : List String) : FRes :=
  match lookupField fs k with
  | some (.str s) =>
      if vals.contains s then .ok [(k, .str s)]
      else .error [.simple (p ++ [.key k]) "invalid_enum_value"]
  | some _ => .error (invalidType (p ++ [.key k]))
  | none => .error (invalidType (p ++ [.key k]))

/-- `z.union([z.string(), z.number()]).optional()` (`ColumnSchema.width`). -/
def optStrNumField (p : List PathItem) (fs : List (String × Json))
    (k : String) : FRes :=
  match lookupField fs k with
  | some (.str s) => .ok [(k, .str s)]
  | some (.num n) => .ok [(k, .num n)]
  | some _ => .error [.simple (p ++ [.key k]) "invalid_union"]
  | none => .ok []

/-- `z.unknown().optional()` (`ActionSchema.data`): any present value
passes through. -/
def optAnyField (fs : List (String × Json)) (k : String) : FRes :=
  match lookupField fs k with
  | some v => .ok [(k, v)]
  | none => .ok []

/-- `z.string().default(d)` (`AdaptiveCardSchema.version`): a missing value
becomes the default. -/
def defStrField (p : List PathItem) (fs : List (String × Json))
    (k d : String) : FRes :=
  match lookupField fs k with
  | some (.str s) => .ok [(k, .str s)]
  | some _ => .error (invalidType (p ++ [.key k]))
  | none => .ok [(k, .str d)]

/-- Abstraction of the WHATWG URL parse behind `z.string().url()`: the
string must start with a URL scheme (a letter followed by letters, digits,
`+`, `-` or `.`) and a colon.  The claims rely only on scheme-less strings
such as `"not a url"` being invalid and ordinary absolute URLs being
valid. -/
def isValidUrl (s : String) : Bool :=
  let cs := s.toList
  let pre := cs.takeWhile (· ≠ ':')
  decide (pre.length < cs.length) &&
    (match pre with
     | [] => false
     | c :: rest =>
         c.isAlpha && rest.all fun d =>
           d.isAlphanum || d = '+' || d = '-' || d = '.')

/-- `z.string().url()` (`ImageSchema.url`). -/
def urlField (p : List PathItem) (fs : List (String × Json)) (k : String) :
    FRes :=
  match lookupField fs k with
  | some (.str s) =>
      if isValidUrl s then .ok [(k, .str s)]
      else .error [.simple (p ++ [.key k]) "invalid_string"]
  | some _ => .error (invalidType (p ++ [.key k]))
  | none => .error (invalidType (p ++ [.key k]))

/-- The `z.array(...).max(n)` length check plus element results: the
`too_big` issue is reported at the path of the array itself, alongside any element
issues. -/
def arrayMaxField (p : List PathItem) (k : String) (maxLen len : Nat)
    (elems : Except (List Issue) (List Json)) : FRes :=
  let maxIssues : List Issue :=
    if maxLen < len then [.simple (p ++ [.key k]) "too_big"] else []
  match elems with
  | .ok ys => if maxLen < len then .error maxIssues else .ok [(k, .arr ys)]
  | .error es => .error (maxIssues ++ es)

/-! ## The enum value lists of `schemas.ts` -/

def weightVals : List String := ["Default", "Lighter", "Bolder"]
def tbSizeVals : List String :=
  ["Default", "Small", "Medium", "Large", "ExtraLarge"]
def colorVals : List String :=
  ["Default", "Dark", "Light", "Accent", "Good", "Warning", "Attention"]
def hAlignVals : List String := ["Left", "Center", "Right"]
def spacingVals : List String :=
  ["None", "Small", "Default", "Medium", "Large", "ExtraLarge"]
def imgSizeVals : List String := ["Auto", "Stretch", "Small", "Medium", "Large"]
def imgStyleVals : List String := ["Default", "Person"]
def vAlignVals : List String := ["Top", "Center", "Bottom"]
def contStyleVals : List String :=
  ["Default", "Emphasis", "Good", "Attention", "Warning"]
def actionTypeVals : List String :=
  ["Action.Submit", "Action.OpenUrl", "Action.ShowCard"]
def actionStyleVals : List String := ["default", "positive", "destructive"]

/-! ## The non-recursive schemas -/

/-- `TextBlockSchema`. -/
def parseTextBlock (p : List PathItem) (j : Json) : PRes :=
  match j with
  | .obj fs =>
      (mergeF (litField p fs "type" "TextBlock")
        (mergeF (reqStrField p fs "text")
          (mergeF (optEnumField p fs "weight" weightVals)
            (mergeF (optEnumField p fs "size" tbSizeVals)
              (mergeF (optEnumField p fs "color" colorVals)
                (mergeF (optBoolField p fs "wrap")
                  (mergeF (optBoolField p fs "isSubtle")
                    (mergeF (optNumField p fs "maxLines")
                      (mergeF (optEnumField p fs "horizontalAlignment" hAlignVals)
                        (mergeF (optEnumField p fs "spacing" spacingVals)
                          (optBoolField p fs "separator"))))))))))).map .obj
  | _ => .error (invalidType p)

/-- `ImageSchema`. -/
def parseImage (p : List PathItem) (j : Json) : PRes :=
  match j with
  | .obj fs =>
      (mergeF (litField p fs "type" "Image")
        (mergeF (urlField p fs "url")
          (mergeF (optStrField p fs "altText")
            (mergeF (optEnumField p fs "size" imgSizeVals)
              (mergeF (optEnumField p fs "style" imgStyleVals)
                (mergeF (optEnumField p fs "horizontalAlignment" hAlignVals)
                  (mergeF (optStrField p fs "width")
                    (optStrField p fs "height")))))))).map .obj
  | _ => .error (invalidType p)

/-- `FactSchema`. -/
def parseFact (p : List PathItem) (j : Json) : PRes :=
  match j with
  | .obj fs =>
      (mergeF (reqStrField p fs "title") (reqStrField p fs "value")).map .obj
  | _ => .error (invalidType p)

/-- The elements of a `facts` array. -/
def parseFactList (p : List PathItem) (i : Nat) :
    List Json → Except (List Issue) (List Json)
  | [] => .ok []
  | x :: rest => mergeL (parseFact (p ++ [.idx i]) x) (parseFactList p (i + 1) rest)

/-- `FactSetSchema.facts`: `z.array(FactSchema).max(10)` at a required key. -/
def factsField (p : List PathItem) (fs : List (String × Json)) : FRes :=
  match lookupField fs "facts" with
  | some (.arr xs) =>
      arrayMaxField p "facts" 10 xs.length
        (parseFactList (p ++ [.key "facts"]) 0 xs)
  | some _ => .error (invalidType (p ++ [.key "facts"]))
  | none => .error (invalidType (p ++ [.key "facts"]))

/-- `FactSetSchema`. -/
def parseFactSet (p : List PathItem) (j : Json) : PRes :=
  match j with
  | .obj fs =>
      (mergeF (litField p fs "type" "FactSet")
        (mergeF (factsField p fs)
          (mergeF (optEnumField p fs "spacing" spacingVals)
            (optBoolField p fs "separator")))).map .obj
  | _ => .error (invalidType p)

/-- `ActionSchema`. -/
def parseAction (p : List PathItem) (j : Json) : PRes :=
  match j with
  | .obj fs =>
      (mergeF (reqEnumField p fs "type" actionTypeVals)
        (mergeF (reqStrField p fs "title")
          (mergeF (optAnyField fs "data")
            (mergeF (optStrField p fs "url")
              (optEnumField p fs "style" actionStyleVals))))).map .obj
  | _ => .error (invalidType p)

/-- The elements of an `actions` array. -/
def parseActionList (p : List PathItem) (i : Nat) :
    List Json → Except (List Issue) (List Json)
  | [] => .ok []
  | x :: rest =>
      mergeL (parseAction (p ++ [.idx i]) x) (parseActionList p (i + 1) rest)

/-- `ActionSetSchema`. -/
def parseActionSet (p : List PathItem) (j : Json) : PRes :=
  match j with
  | .obj fs =>
      (mergeF (litField p fs "type" "ActionSet")
        (match lookupField fs "actions" with
         | some (.arr xs) =>
             (parseActionList (p ++ [.key "actions"]) 0 xs).map
               (fun ys => [("actions", Json.arr ys)])
         | some _ => .error (invalidType (p ++ [.key "actions"]))
         | none => .error (invalidType (p ++ [.key "actions"])))).map .obj
  | _ => .error (invalidType p)

/-- A value found in the field list of an object is smaller than the field
list (used for the termination of the recursive parsers). -/
theorem sizeOf_lookupField :
    ∀ {fs : List (String × Json)} {k : String} {v : Json},
      lookupField fs k = some v → sizeOf v < 1 + sizeOf fs := by
  intro fs
  induction fs with
  | nil => intro k v h; simp [lookupField] at h
  | cons kv rest ih =>
    intro k v h
    obtain ⟨k', v'⟩ := kv
    simp only [lookupField] at h
    by_cases hk : k' = k
    · simp only [if_pos hk] at h
      cases h
      simp
      omega
    · simp only [if_neg hk] at h
      have := ih h
      simp
      omega

/-! ## The recursive element union

`CardElementSchema` is `z.lazy(() => z.union([TextBlock, Image, FactSet,
ColumnSet, Container, ActionSet]))`: options are tried in declaration
order and the first success wins; when all fail, zod reports one
`invalid_union` issue carrying the issues of every option. -/

mutual

/-- `CardElementSchema` (the lazy union). -/
def parseCardElement (p : List PathItem) (j : Json) : PRes :=
  match parseTextBlock p j with
  | .ok o => .ok o
  | .error e1 =>
    match parseImage p j with
    | .ok o => .ok o
    | .error e2 =>
      match parseFactSet p j with
      | .ok o => .ok o
      | .error e3 =>
        match parseColumnSet p j with
        | .ok o => .ok o
        | .error e4 =>
          match parseContainer p j with
          | .ok o => .ok o
          | .error e5 =>
            match parseActionSet p j with
            | .ok o => .ok o
            | .error e6 => .error [.union p [e1, e2, e3, e4, e5, e6]]
termination_by (sizeOf j, 3)

/-- `ColumnSetSchema`. -/
def parseColumnSet (p : List PathItem) (j : Json) : PRes :=
  match j with
  | .obj fs =>
      (mergeF (litField p fs "type" "ColumnSet")
        (mergeF
          (match h : lookupField fs "columns" with
           | some (.arr xs) =>
               have hlt : sizeOf xs < 1 + sizeOf fs := by
                 have := sizeOf_lookupField h; simp at this; omega
               (parseColumnList (p ++ [.key "columns"]) 0 xs).map
                 (fun ys => [("columns", Json.arr ys)])
           | some _ => .error (invalidType (p ++ [.key "columns"]))
           | none => .error (invalidType (p ++ [.key "columns"])))
          (mergeF (optEnumField p fs "spacing" spacingVals)
            (optBoolField p fs "separator")))).map .obj
  | _ => .error (invalidType p)
termination_by (sizeOf j, 2)

/-- `ContainerSchema`. -/
def parseContainer (p : List PathItem) (j : Json) : PRes :=
  match j with
  | .obj fs =>
      (mergeF (litField p fs "type" "Container")
        (mergeF
          (match h : lookupField fs "items" with
           | some (.arr xs) =>
               have hlt : sizeOf xs < 1 + sizeOf fs := by
                 have := sizeOf_lookupField h; simp at this; omega
               (parseElemList (p ++ [.key "items"]) 0 xs).map
                 (fun ys => [("items", Json.arr ys)])
           | some _ => .error (invalidType (p ++ [.key "items"]))
           | none => .error (invalidType (p ++ [.key "items"])))
          (mergeF (optEnumField p fs "style" contStyleVals)
            (mergeF (optEnumField p fs "spacing" spacingVals)
              (optBoolField p fs "separator"))))).map .obj
  | _ => .error (invalidType p)
termination_by (sizeOf j, 2)

/-- `ColumnSchema` (`items` is optional). -/
def parseColumn (p : List PathItem) (j : Json) : PRes :=
  match j with
  | .obj fs =>
      (mergeF (litField p fs "type" "Column")
        (mergeF (optStrNumField p fs "width")
          (mergeF
            (match h : lookupField fs "items" with
             | some (.arr xs) =>
                 have hlt : sizeOf xs < 1 + sizeOf fs := by
                   have := sizeOf_lookupField h; simp at this; omega
                 (parseElemList (p ++ [.key "items"]) 0 xs).map
                   (fun ys => [("items", Json.arr ys)])
             | some _ => .error (invalidType (p ++ [.key "items"]))
             | none => .ok [])
            (mergeF (optEnumField p fs "verticalContentAlignment" vAlignVals)
              (optEnumField p fs "spacing" spacingVals))))).map .obj
  | _ => .error (invalidType p)
termination_by (sizeOf j, 2)

/-- The elements of a card-element array (`body`, `items`). -/
def parseElemList (p : List PathItem) (i : Nat) (xs : List Json) :
    Except (List Issue) (List Json) :=
  match xs with
  | [] => .ok []
  | x :: rest =>
      mergeL (parseCardElement (p ++ [.idx i]) x) (parseElemList p (i + 1) rest)
termination_by (sizeOf xs, 0)

/-- The elements of a `columns` array. -/
def parseColumnList (p : List PathItem) (i : Nat) (xs : List Json) :
    Except (List Issue) (List Json) :=
  match xs with
  | [] => .ok []
  | x :: rest =>
      mergeL (parseColumn (p ++ [.idx i]) x) (parseColumnList p (i + 1) rest)
termination_by (sizeOf xs, 0)

end

/-! ## The top-level schemas -/

/-- `AdaptiveCardSchema` (output keys in shape order: `type`, `version`,
`body`, `actions`, `$schema`).  The path parameter locates the card inside
an enclosing value (`[]` when parsed standalone, `["card"]` inside
`PostRichMessageRequestSchema`). -/
def parseAdaptiveCard (p : List PathItem) (j : Json) : PRes :=
  match j with
  | .obj fs =>
      (mergeF (litField p fs "type" "AdaptiveCard")
        (mergeF (defStrField p fs "version" "1.4")
          (mergeF
            (match lookupField fs "body" with
             | some (.arr xs) =>
                 arrayMaxField p "body" 50 xs.length
                   (parseElemList (p ++ [.key "body"]) 0 xs)
             | some _ => .error (invalidType (p ++ [.key "body"]))
             | none => .error (invalidType (p ++ [.key "body"])))
            (mergeF
              (match lookupField fs "actions" with
               | some (.arr xs) =>
                   (parseActionList (p ++ [.key "actions"]) 0 xs).map
                     (fun ys => [("actions", Json.arr ys)])
               | some _ => .error (invalidType (p ++ [.key "actions"]))
               | none => .ok [])
              (optStrField p fs "$schema"))))).map .obj
  | _ => .error (invalidType p)

/-- The `.refine((data) => data.text || data.card, ...)` predicate of
`PostRichMessageRequestSchema`, evaluated on the parsed output: `text` is
truthy when present and non-empty, `card` when present (a parsed card is
an object, hence truthy). -/
def richRefineHolds (out : List (String × Json)) : Bool :=
  (match lookupField out "text" with
   | some (.str s) => decide (s ≠ "")
   | some _ => true
   | none => false) ||
  (lookupField out "card").isSome

/-- `PostRichMessageRequestSchema`: the base object (`text` optional
string, `card` optional `AdaptiveCardSchema`, `thread_id` optional
string), then the require-one-of refinement, which zod runs only when the
base object parsed successfully; its issue has code `custom` and path
`["text", "card"]`. -/
def parsePostRichMessageArgs (j : Json) : PRes :=
  match j with
  | .obj fs =>
      match mergeF (optStrField [] fs "text")
          (mergeF
            (match lookupField fs "card" with
             | some c => (parseAdaptiveCard [.key "card"] c).map
                 (fun o => [("card", o)])
             | none => .ok [])
            (optStrField [] fs "thread_id")) with
      | .error es => .error es
      | .ok out =>
          if richRefineHolds out then .ok (.obj out)
          else .error [.simple [.key "text", .key "card"] "custom"]
  | _ => .error (invalidType [])

/-! ## Typed card documents

A typed model of the value space accepted by `AdaptiveCardSchema`, used to
quantify over all well-formed card inputs in the round-trip claims.  Each
constructor field corresponds to one schema key, in shape order; `Option`
marks `.optional()` fields. -/

inductive WeightT | wDefault | wLighter | wBolder
  deriving DecidableEq, Repr

def WeightT.toStr : WeightT → String
  | .wDefault => "Default" | .wLighter => "Lighter" | .wBolder => "Bolder"

inductive TBSizeT | sDefault | sSmall | sMedium | sLarge | sExtraLarge
  deriving DecidableEq, Repr

def TBSizeT.toStr : TBSizeT → String
  | .sDefault => "Default" | .sSmall => "Small" | .sMedium => "Medium"
  | .sLarge => "Large" | .sExtraLarge => "ExtraLarge"

inductive ColorT
  | cDefault | cDark | cLight | cAccent | cGood | cWarning | cAttention
  deriving DecidableEq, Repr

def ColorT.toStr : ColorT → String
  | .cDefault => "Default" | .cDark => "Dark" | .cLight => "Light"
  | .cAccent => "Accent" | .cGood => "Good" | .cWarning => "Warning"
  | .cAttention => "Attention"

inductive HAlignT | hLeft | hCenter | hRight
  deriving DecidableEq, Repr

def HAlignT.toStr : HAlignT → String
  | .hLeft => "Left" | .hCenter => "Center" | .hRight => "Right"

inductive SpacingT | spNone | spSmall | spDefault | spMedium | spLarge | spExtraLarge
  deriving DecidableEq, Repr

def SpacingT.toStr : SpacingT → String
  | .spNone => "None" | .spSmall => "Small" | .spDefault => "Default"
  | .spMedium => "Medium" | .spLarge => "Large" | .spExtraLarge => "ExtraLarge"

inductive ImgSizeT | iAuto | iStretch | iSmall | iMedium | iLarge
  deriving DecidableEq, Repr

def ImgSizeT.toStr : ImgSizeT → String
  | .iAuto => "Auto" | .iStretch => "Stretch" | .iSmall => "Small"
  | .iMedium => "Medium" | .iLarge => "Large"

inductive ImgStyleT | isDefault | isPerson
  deriving DecidableEq, Repr

def ImgStyleT.toStr : ImgStyleT → String
  | .isDefault => "Default" | .isPerson => "Person"

inductive VAlignT | vTop | vCenter | vBottom
  deriving DecidableEq, Repr

def VAlignT.toStr : VAlignT → String
  | .vTop => "Top" | .vCenter => "Center" | .vBottom => "Bottom"

inductive ContStyleT | ctDefault | ctEmphasis | ctGood | ctAttention | ctWarning
  deriving DecidableEq, Repr

def ContStyleT.toStr : ContStyleT → String
  | .ctDefault => "Default" | .ctEmphasis => "Emphasis" | .ctGood => "Good"
  | .ctAttention => "Attention" | .ctWarning => "Warning"

inductive ActionTypeT | aSubmit | aOpenUrl | aShowCard
  deriving DecidableEq, Repr

def ActionTypeT.toStr : ActionTypeT → String
  | .aSubmit => "Action.Submit" | .aOpenUrl => "Action.OpenUrl"
  | .aShowCard => "Action.ShowCard"

inductive ActionStyleT | asDefault | asPositive | asDestructive
  deriving DecidableEq, Repr

def ActionStyleT.toStr : ActionStyleT → String
  | .asDefault => "default" | .asPositive => "positive"
  | .asDestructive => "destructive"

/-- `ColumnSchema.width`: `z.union([z.string(), z.number()])`. -/
inductive WidthT
  | wstr (s : String)
  | wnum (n : Int)
  deriving DecidableEq, Repr

def WidthT.toJson : WidthT → Json
  | .wstr s => .str s
  | .wnum n => .num n

/-- `FactSchema`. -/
structure FactT where
  title : String
  value : String

def FactT.toJson (f : FactT) : Json :=
  .obj [("title", .str f.title), ("value", .str f.value)]

/-- `ActionSchema`. -/
structure ActionT where
  type : ActionTypeT
  title : String
  data : Option Json
  url : Option String
  style : Option ActionStyleT

mutual

/-- One `CardElementSchema` variant. -/
inductive CElem where
  | textBlock (text : String) (weight : Option WeightT)
      (size : Option TBSizeT) (color : Option ColorT) (wrap : Option Bool)
      (isSubtle : Option Bool) (maxLines : Option Int)
      (horizontalAlignment : Option HAlignT) (spacing : Option SpacingT)
      (separator : Option Bool)
  | image (url : String) (altText : Option String) (size : Option ImgSizeT)
      (style : Option ImgStyleT) (horizontalAlignment : Option HAlignT)
      (width : Option String) (height : Option String)
  | factSet (facts : List FactT) (spacing : Option SpacingT)
      (separator : Option Bool)
  | columnSet (columns : CColList) (spacing : Option SpacingT)
      (separator : Option Bool)
  | container (items : CElemList) (style : Option ContStyleT)
      (spacing : Option SpacingT) (separator : Option Bool)
  | actionSet (actions : List ActionT)

/-- A `ColumnSchema` value. -/
inductive CCol where
  | mk (width : Option WidthT) (items : Option CElemList)
      (verticalContentAlignment : Option VAlignT) (spacing : Option SpacingT)

/-- A list of card elements (`body`, `Container.items`, `Column.items`). -/
inductive CElemList where
  | nil
  | cons (e : CElem) (rest : CElemList)

/-- A list of columns (`ColumnSet.columns`). -/
inductive CColList where
  | nil
  | cons (c : CCol) (rest : CColList)

end

/-- A `AdaptiveCardSchema` value (`type` is the fixed discriminator;
`version` is optional in the input and defaulted by validation). -/
structure CardT where
  version : Option String
  body : CElemList
  actions : Option (List ActionT)
  schemaUrl : Option String

/-- Emit an optional field: absent options contribute no key. -/
def optJ (k : String) : Option Json → List (String × Json)
  | none => []
  | some v => [(k, v)]

def ActionT.toJson (a : ActionT) : Json :=
  .obj ([("type", .str a.type.toStr), ("title", .str a.title)]
    ++ optJ "data" a.data
    ++ optJ "url" (a.url.map .str)
    ++ optJ "style" (a.style.map fun x => .str x.toStr))

mutual

/-- Serialize a card element, keys in schema shape order. -/
def CElem.toJson : CElem → Json
  | .textBlock t w sz c wr sub ml ha sp sep =>
      .obj ([("type", Json.str "TextBlock"), ("text", Json.str t)]
        ++ optJ "weight" (w.map fun x => .str x.toStr)
        ++ optJ "size" (sz.map fun x => .str x.toStr)
        ++ optJ "color" (c.map fun x => .str x.toStr)
        ++ optJ "wrap" (wr.map .bool)
        ++ optJ "isSubtle" (sub.map .bool)
        ++ optJ "maxLines" (ml.map .num)
        ++ optJ "horizontalAlignment" (ha.map fun x => .str x.toStr)
        ++ optJ "spacing" (sp.map fun x => .str x.toStr)
        ++ optJ "separator" (sep.map .bool))
  | .image u alt sz st ha w h =>
      .obj ([("type", Json.str "Image"), ("url", Json.str u)]
        ++ optJ "altText" (alt.map .str)
        ++ optJ "size" (sz.map fun x => .str x.toStr)
        ++ optJ "style" (st.map fun x => .str x.toStr)
        ++ optJ "horizontalAlignment" (ha.map fun x => .str x.toStr)
        ++ optJ "width" (w.map .str)
        ++ optJ "height" (h.map .str))
  | .factSet facts sp sep =>
      .obj ([("type", Json.str "FactSet"),
          ("facts", Json.arr (facts.map FactT.toJson))]
        ++ optJ "spacing" (sp.map fun x => .str x.toStr)
        ++ optJ "separator" (sep.map .bool))
  | .columnSet cols sp sep =>
      .obj ([("type", Json.str "ColumnSet"),
          ("columns", Json.arr cols.toJsonList)]
        ++ optJ "spacing" (sp.map fun x => .str x.toStr)
        ++ optJ "separator" (sep.map .bool))
  | .container items st sp sep =>
      .obj ([("type", Json.str "Container"),
          ("items", Json.arr items.toJsonList)]
        ++ optJ "style" (st.map fun x => .str x.toStr)
        ++ optJ "spacing" (sp.map fun x => .str x.toStr)
        ++ optJ "separator" (sep.map .bool))
  | .actionSet as =>
      .obj [("type", Json.str "ActionSet"),
        ("actions", Json.arr (as.map ActionT.toJson))]

/-- Serialize a column. -/
def CCol.toJson : CCol → Json
  | .mk w items va sp =>
      .obj ([("type", Json.str "Column")]
        ++ optJ "width" (w.map WidthT.toJson)
        ++ (match items with
            | some l => optJ "items" (some (Json.arr l.toJsonList))
            | none => optJ "items" none)
        ++ optJ "verticalContentAlignment" (va.map fun x => .str x.toStr)
        ++ optJ "spacing" (sp.map fun x => .str x.toStr))

def CElemList.toJsonList : CElemList → List Json
  | .nil => []
  | .cons e rest => e.toJson :: rest.toJsonList

def CColList.toJsonList : CColList → List Json
  | .nil => []
  | .cons c rest => c.toJson :: rest.toJsonList

end

/-- Serialize a card document, keys in shape order. -/
def CardT.toJson (c : CardT) : Json :=
  .obj ([("type", Json.str "AdaptiveCard")]
    ++ optJ "version" (c.version.map .str)
    ++ [("body", Json.arr c.body.toJsonList)]
    ++ optJ "actions" (c.actions.map fun l => .arr (l.map ActionT.toJson))
    ++ optJ "$schema" (c.schemaUrl.map .str))

/-- The card with validation defaults applied: a missing `version` becomes
`"1.4"`. -/
def CardT.withDefaults (c : CardT) : CardT :=
  { c with version := some (c.version.getD "1.4") }

mutual

/-- Well-formedness of a card element: `FactSet.facts` within its bound
and `Image.url` a valid URL, recursively. -/
def CElem.wf : CElem → Bool
  | .textBlock .. => true
  | .image u .. => isValidUrl u
  | .factSet facts _ _ => decide (facts.length ≤ 10)
  | .columnSet cols _ _ => cols.wf
  | .container items _ _ _ => items.wf
  | .actionSet _ => true

def CCol.wf : CCol → Bool
  | .mk _ items _ _ =>
      match items with
      | some l => l.wf
      | none => true

def CElemList.wf : CElemList → Bool
  | .nil => true
  | .cons e rest => e.wf && rest.wf

def CColList.wf : CColList → Bool
  | .nil => true
  | .cons c rest => c.wf && rest.wf

end

def CElemList.length : CElemList → Nat
  | .nil => 0
  | .cons _ rest => 1 + rest.length

/-- Well-formedness of a card document: `body` within its bound and every
element well-formed. -/
def CardT.wf (c : CardT) : Bool :=
  decide (c.body.length ≤ 50) && c.body.wf

/-- A list of `n` copies of one element (used to exercise nested arrays of
arbitrary length). -/
def repElems : Nat → CElem → CElemList
  | 0, _ => .nil
  | n + 1, e => .cons e (repElems n e)

/-- A list of `n` copies of one column. -/
def repCols : Nat → CCol → CColList
  | 0, _ => .nil
  | n + 1, c => .cons c (repCols n c)

/-- A plain text block. -/
def sampleTextBlock : CElem :=
  .textBlock "hello" none none none none none none none none none

/-- A card whose nested arrays (`Container.items`, `ColumnSet.columns`,
`Column.items`) all have length `n`, while `body` has length 2. -/
def unboundedCard (n : Nat) : CardT :=
  ⟨some "1.4",
   .cons (.container (repElems n sampleTextBlock) none none none)
     (.cons
       (.columnSet
         (repCols n (.mk none (some (repElems n sampleTextBlock)) none none))
         none none)
       .nil),
   none, none⟩

/-- A deeply nested card: a `Container` holding a `ColumnSet` holding
`Column`s holding a nested `Container` of `TextBlock`s. -/
def nestedCard : CardT :=
  ⟨none,
   .cons
     (.container
       (.cons
         (.columnSet
           (.cons
             (.mk (some (.wnum 1))
               (some (.cons
                 (.container (.cons sampleTextBlock .nil) none none none)
                 .nil))
               none none)
             (.cons (.mk (some (.wstr "auto")) none none none) .nil))
           none none)
         .nil)
       none none none)
     .nil,
   none, none⟩

/-- The smallest valid card: an empty `body`. -/
def minimalCard : CardT := ⟨none, .nil, none, none⟩

/-! ## Lookup toolkit -/

@[simp] theorem lookupField_nil (k : String) : lookupField [] k = none := rfl

@[simp] theorem lookupField_cons (k' k : String) (v : Json)
    (fs : List (String × Json)) :
    lookupField ((k', v) :: fs) k = if k' = k then some v else lookupField fs k :=
  rfl

@[simp] theorem lookupField_append (l1 l2 : List (String × Json)) (k : String) :
    lookupField (l1 ++ l2) k = (lookupField l1 k).or (lookupField l2 k) := by
  induction l1 with
  | nil => simp [lookupField]
  | cons kv rest ih =>
    obtain ⟨k', v⟩ := kv
    by_cases h : k' = k <;> simp [lookupField, h, ih]

@[simp] theorem lookupField_optJ (k k' : String) (o : Option Json) :
    lookupField (optJ k o) k' = if k = k' then o else none := by
  cases o <;> simp [optJ, lookupField] <;> split <;> simp_all

/-! ## Enum membership -/

@[simp] theorem weight_mem (x : WeightT) :
    weightVals.contains x.toStr = true := by cases x <;> rfl

@[simp] theorem tbSize_mem (x : TBSizeT) :
    tbSizeVals.contains x.toStr = true := by cases x <;> rfl

@[simp] theorem color_mem (x : ColorT) :
    colorVals.contains x.toStr = true := by cases x <;> rfl

@[simp] theorem hAlign_mem (x : HAlignT) :
    hAlignVals.contains x.toStr = true := by cases x <;> rfl

@[simp] theorem spacing_mem (x : SpacingT) :
    spacingVals.contains x.toStr = true := by cases x <;> rfl

@[simp] theorem imgSize_mem (x : ImgSizeT) :
    imgSizeVals.contains x.toStr = true := by cases x <;> rfl

@[simp] theorem imgStyle_mem (x : ImgStyleT) :
    imgStyleVals.contains x.toStr = true := by cases x <;> rfl

@[simp] theorem vAlign_mem (x : VAlignT) :
    vAlignVals.contains x.toStr = true := by cases x <;> rfl

@[simp] theorem contStyle_mem (x : ContStyleT) :
    contStyleVals.contains x.toStr = true := by cases x <;> rfl

@[simp] theorem actionType_mem (x : ActionTypeT) :
    actionTypeVals.contains x.toStr = true := by cases x <;> rfl

@[simp] theorem actionStyle_mem (x : ActionStyleT) :
    actionStyleVals.contains x.toStr = true := by cases x <;> rfl

/-! ## Field round-trip lemmas -/

@[simp] theorem mergeF_ok_ok (a b : List (String × Json)) :
    mergeF (.ok a) (.ok b) = .ok (a ++ b) := rfl

theorem litField_rt {fs : List (String × Json)} {k v : String}
    (p : List PathItem) (h : lookupField fs k = some (.str v)) :
    litField p fs k v = .ok [(k, .str v)] := by simp [litField, h]

theorem reqStrField_rt {fs : List (String × Json)} {k s : String}
    (p : List PathItem) (h : lookupField fs k = some (.str s)) :
    reqStrField p fs k = .ok [(k, .str s)] := by simp [reqStrField, h]

theorem optStrField_rt {fs : List (String × Json)} {k : String}
    (p : List PathItem) (o : Option String)
    (h : lookupField fs k = o.map .str) :
    optStrField p fs k = .ok (optJ k (o.map .str)) := by
  cases o <;> simp_all [optStrField, optJ]

theorem optBoolField_rt {fs : List (String × Json)} {k : String}
    (p : List PathItem) (o : Option Bool)
    (h : lookupField fs k = o.map .bool) :
    optBoolField p fs k = .ok (optJ k (o.map .bool)) := by
  cases o <;> simp_all [optBoolField, optJ]

theorem optNumField_rt {fs : List (String × Json)} {k : String}
    (p : List PathItem) (o : Option Int)
    (h : lookupField fs k = o.map .num) :
    optNumField p fs k = .ok (optJ k (o.map .num)) := by
  cases o <;> simp_all [optNumField, optJ]

theorem optEnumField_rt {α : Type} {fs : List (String × Json)} {k : String}
    {vals : List String} (p : List PathItem) (f : α → String) (o : Option α)
    (hv : ∀ x, vals.contains (f x) = true)
    (h : lookupField fs k = o.map fun x => .str (f x)) :
    optEnumField p fs k vals = .ok (optJ k (o.map fun x => Json.str (f x))) := by
  cases o with
  | none => simp_all [optEnumField, optJ]
  | some x => simp_all [optEnumField, optJ, hv x]

theorem reqEnumField_rt {α : Type} {fs : List (String × Json)} {k : String}
    {vals : List String} (p : List PathItem) (f : α → String) (x : α)
    (hv : ∀ y, vals.contains (f y) = true)
    (h : lookupField fs k = some (.str (f x))) :
    reqEnumField p fs k vals = .ok [(k, .str (f x))] := by
  simp_all [reqEnumField, hv x]

theorem optStrNumField_rt {fs : List (String × Json)} {k : String}
    (p : List PathItem) (o : Option WidthT)
    (h : lookupField fs k = o.map WidthT.toJson) :
    optStrNumField p fs k = .ok (optJ k (o.map WidthT.toJson)) := by
  cases o with
  | none => simp_all [optStrNumField, optJ]
  | some w => cases w <;> simp_all [optStrNumField, optJ, WidthT.toJson]

theorem optAnyField_rt {fs : List (String × Json)} {k : String}
    (o : Option Json) (h : lookupField fs k = o) :
    optAnyField fs k = .ok (optJ k o) := by
  cases o <;> simp_all [optAnyField, optJ]

theorem defStrField_rt {fs : List (String × Json)} {k d : String}
    (p : List PathItem) (o : Option String)
    (h : lookupField fs k = o.map .str) :
    defStrField p fs k d = .ok [(k, .str (o.getD d))] := by
  cases o <;> simp_all [defStrField]

theorem urlField_rt {fs : List (String × Json)} {k s : String}
    (p : List PathItem) (h : lookupField fs k = some (.str s))
    (hu : isValidUrl s = true) :
    urlField p fs k = .ok [(k, .str s)] := by simp [urlField, h, hu]

/-! ## Round-trip lemmas for the non-recursive schemas -/

theorem parseFact_rt (p : List PathItem) (f : FactT) :
    parseFact p f.toJson = .ok f.toJson := by
  simp [FactT.toJson, parseFact, reqStrField, mergeF, Except.map]

@[simp] theorem parseFactList_rt (facts : List FactT) (p : List PathItem)
    (i : Nat) :
    parseFactList p i (facts.map FactT.toJson) = .ok (facts.map FactT.toJson) := by
  induction facts generalizing i with
  | nil => simp [parseFactList]
  | cons f rest ih => simp [parseFactList, parseFact_rt, mergeL, ih]

theorem factsField_rt {fs : List (String × Json)} (p : List PathItem)
    (facts : List FactT)
    (h : lookupField fs "facts" = some (.arr (facts.map FactT.toJson)))
    (hlen : facts.length ≤ 10) :
    factsField p fs = .ok [("facts", .arr (facts.map FactT.toJson))] := by
  have hn : ¬ (10 < (facts.map FactT.toJson).length) := by simp; omega
  simp [factsField, h, arrayMaxField, hn, hlen]

theorem parseTextBlock_rt (p : List PathItem) (t : String)
    (w : Option WeightT) (sz : Option TBSizeT) (c : Option ColorT)
    (wr sub : Option Bool) (ml : Option Int) (ha : Option HAlignT)
    (sp : Option SpacingT) (sep : Option Bool) :
    parseTextBlock p (CElem.toJson (.textBlock t w sz c wr sub ml ha sp sep)) =
      .ok (CElem.toJson (.textBlock t w sz c wr sub ml ha sp sep)) := by
  simp only [CElem.toJson, parseTextBlock]
  rw [litField_rt p (by simp),
    reqStrField_rt (s := t) p (by simp),
    optEnumField_rt p WeightT.toStr w weight_mem (by simp),
    optEnumField_rt p TBSizeT.toStr sz tbSize_mem (by simp),
    optEnumField_rt p ColorT.toStr c color_mem (by simp),
    optBoolField_rt p wr (by simp),
    optBoolField_rt p sub (by simp),
    optNumField_rt p ml (by simp),
    optEnumField_rt p HAlignT.toStr ha hAlign_mem (by simp),
    optEnumField_rt p SpacingT.toStr sp spacing_mem (by simp),
    optBoolField_rt p sep (by simp)]
  simp [mergeF, Except.map]

theorem parseImage_rt (p : List PathItem) (u : String) (alt : Option String)
    (sz : Option ImgSizeT) (st : Option ImgStyleT) (ha : Option HAlignT)
    (w h : Option String) (hu : isValidUrl u = true) :
    parseImage p (CElem.toJson (.image u alt sz st ha w h)) =
      .ok (CElem.toJson (.image u alt sz st ha w h)) := by
  simp only [CElem.toJson, parseImage]
  rw [litField_rt p (by simp),
    urlField_rt p (by simp) hu,
    optStrField_rt p alt (by simp),
    optEnumField_rt p ImgSizeT.toStr sz imgSize_mem (by simp),
    optEnumField_rt p ImgStyleT.toStr st imgStyle_mem (by simp),
    optEnumField_rt p HAlignT.toStr ha hAlign_mem (by simp),
    optStrField_rt p w (by simp),
    optStrField_rt p h (by simp)]
  simp [mergeF, Except.map]

theorem parseFactSet_rt (p : List PathItem) (facts : List FactT)
    (sp : Option SpacingT) (sep : Option Bool) (hlen : facts.length ≤ 10) :
    parseFactSet p (CElem.toJson (.factSet facts sp sep)) =
      .ok (CElem.toJson (.factSet facts sp sep)) := by
  simp only [CElem.toJson, parseFactSet]
  rw [litField_rt p (by simp),
    factsField_rt p facts (by simp) hlen,
    optEnumField_rt p SpacingT.toStr sp spacing_mem (by simp),
    optBoolField_rt p sep (by simp)]
  simp [mergeF, Except.map]

theorem parseAction_rt (p : List PathItem) (a : ActionT) :
    parseAction p a.toJson = .ok a.toJson := by
  obtain ⟨ty, ti, da, u, st⟩ := a
  simp only [ActionT.toJson, parseAction]
  rw [reqEnumField_rt p ActionTypeT.toStr ty actionType_mem (by simp),
    reqStrField_rt (s := ti) p (by simp),
    optAnyField_rt da (by simp),
    optStrField_rt p u (by simp),
    optEnumField_rt p ActionStyleT.toStr st actionStyle_mem (by simp)]
  simp [mergeF, Except.map]

@[simp] theorem parseActionList_rt (as : List ActionT) (p : List PathItem)
    (i : Nat) :
    parseActionList p i (as.map ActionT.toJson) = .ok (as.map ActionT.toJson) := by
  induction as generalizing i with
  | nil => simp [parseActionList]
  | cons a rest ih => simp [parseActionList, parseAction_rt, mergeL, ih]

theorem parseActionSet_rt (p : List PathItem) (as : List ActionT) :
    parseActionSet p (CElem.toJson (.actionSet as)) =
      .ok (CElem.toJson (.actionSet as)) := by
  simp only [CElem.toJson, parseActionSet]
  rw [litField_rt p (by simp)]
  simp [mergeF, Except.map]

/-! ## Union dispatch lemmas -/

theorem mergeF_error_left (a : List Issue) (r : FRes) :
    mergeF (.error a) r =
      .error (a ++ (match r with | .error b => b | .ok _ => [])) := by
  cases r <;> simp [mergeF]

theorem parseTextBlock_wrongType {fs : List (String × Json)} {t : String}
    (p : List PathItem) (h : lookupField fs "type" = some (.str t))
    (ht : t ≠ "TextBlock") :
    ∃ es, parseTextBlock p (.obj fs) = .error es := by
  simp only [parseTextBlock]
  have hl : litField p fs "type" "TextBlock" =
      .error [.simple (p ++ [.key "type"]) "invalid_literal"] := by
    simp [litField, h, ht]
  rw [hl, mergeF_error_left]
  exact ⟨_, rfl⟩

theorem parseImage_wrongType {fs : List (String × Json)} {t : String}
    (p : List PathItem) (h : lookupField fs "type" = some (.str t))
    (ht : t ≠ "Image") :
    ∃ es, parseImage p (.obj fs) = .error es := by
  simp only [parseImage]
  have hl : litField p fs "type" "Image" =
      .error [.simple (p ++ [.key "type"]) "invalid_literal"] := by
    simp [litField, h, ht]
  rw [hl, mergeF_error_left]
  exact ⟨_, rfl⟩

theorem parseFactSet_wrongType {fs : List (String × Json)} {t : String}
    (p : List PathItem) (h : lookupField fs "type" = some (.str t))
    (ht : t ≠ "FactSet") :
    ∃ es, parseFactSet p (.obj fs) = .error es := by
  simp only [parseFactSet]
  have hl : litField p fs "type" "FactSet" =
      .error [.simple (p ++ [.key "type"]) "invalid_literal"] := by
    simp [litField, h, ht]
  rw [hl, mergeF_error_left]
  exact ⟨_, rfl⟩

theorem parseColumnSet_wrongType {fs : List (String × Json)} {t : String}
    (p : List PathItem) (h : lookupField fs "type" = some (.str t))
    (ht : t ≠ "ColumnSet") :
    ∃ es, parseColumnSet p (.obj fs) = .error es := by
  simp only [parseColumnSet]
  have hl : litField p fs "type" "ColumnSet" =
      .error [.simple (p ++ [.key "type"]) "invalid_literal"] := by
    simp [litField, h, ht]
  rw [hl, mergeF_error_left]
  exact ⟨_, rfl⟩

theorem parseContainer_wrongType {fs : List (String × Json)} {t : String}
    (p : List PathItem) (h : lookupField fs "type" = some (.str t))
    (ht : t ≠ "Container") :
    ∃ es, parseContainer p (.obj fs) = .error es := by
  simp only [parseContainer]
  have hl : litField p fs "type" "Container" =
      .error [.simple (p ++ [.key "type"]) "invalid_literal"] := by
    simp [litField, h, ht]
  rw [hl, mergeF_error_left]
  exact ⟨_, rfl⟩

theorem parseCardElement_ok1 {p : List PathItem} {j o : Json}
    (h : parseTextBlock p j = .ok o) : parseCardElement p j = .ok o := by
  simp only [parseCardElement]
  rw [h]

theorem parseCardElement_ok2 {p : List PathItem} {j o : Json}
    (h1 : ∃ e, parseTextBlock p j = .error e)
    (h : parseImage p j = .ok o) : parseCardElement p j = .ok o := by
  obtain ⟨e1, he1⟩ := h1
  simp only [parseCardElement]
  rw [he1, h]

theorem parseCardElement_ok3 {p : List PathItem} {j o : Json}
    (h1 : ∃ e, parseTextBlock p j = .error e)
    (h2 : ∃ e, parseImage p j = .error e)
    (h : parseFactSet p j = .ok o) : parseCardElement p j = .ok o := by
  obtain ⟨e1, he1⟩ := h1
  obtain ⟨e2, he2⟩ := h2
  simp only [parseCardElement]
  rw [he1, he2, h]

theorem parseCardElement_ok4 {p : List PathItem} {j o : Json}
    (h1 : ∃ e, parseTextBlock p j = .error e)
    (h2 : ∃ e, parseImage p j = .error e)
    (h3 : ∃ e, parseFactSet p j = .error e)
    (h : parseColumnSet p j = .ok o) : parseCardElement p j = .ok o := by
  obtain ⟨e1, he1⟩ := h1
  obtain ⟨e2, he2⟩ := h2
  obtain ⟨e3, he3⟩ := h3
  simp only [parseCardElement]
  rw [he1, he2, he3, h]

theorem parseCardElement_ok5 {p : List PathItem} {j o : Json}
    (h1 : ∃ e, parseTextBlock p j = .error e)
    (h2 : ∃ e, parseImage p j = .error e)
    (h3 : ∃ e, parseFactSet p j = .error e)
    (h4 : ∃ e, parseColumnSet p j = .error e)
    (h : parseContainer p j = .ok o) : parseCardElement p j = .ok o := by
  obtain ⟨e1, he1⟩ := h1
  obtain ⟨e2, he2⟩ := h2
  obtain ⟨e3, he3⟩ := h3
  obtain ⟨e4, he4⟩ := h4
  simp only [parseCardElement]
  rw [he1, he2, he3, he4, h]

theorem parseCardElement_ok6 {p : List PathItem} {j o : Json}
    (h1 : ∃ e, parseTextBlock p j = .error e)
    (h2 : ∃ e, parseImage p j = .error e)
    (h3 : ∃ e, parseFactSet p j = .error e)
    (h4 : ∃ e, parseColumnSet p j = .error e)
    (h5 : ∃ e, parseContainer p j = .error e)
    (h : parseActionSet p j = .ok o) : parseCardElement p j = .ok o := by
  obtain ⟨e1, he1⟩ := h1
  obtain ⟨e2, he2⟩ := h2
  obtain ⟨e3, he3⟩ := h3
  obtain ⟨e4, he4⟩ := h4
  obtain ⟨e5, he5⟩ := h5
  simp only [parseCardElement]
  rw [he1, he2, he3, he4, he5, h]

/-! ## Round-trip lemmas for the recursive schemas -/

theorem parseContainer_rt (p : List PathItem) (items : CElemList)
    (st : Option ContStyleT) (sp : Option SpacingT) (sep : Option Bool)
    (hitems : parseElemList (p ++ [.key "items"]) 0 items.toJsonList =
      .ok items.toJsonList) :
    parseContainer p (CElem.toJson (.container items st sp sep)) =
      .ok (CElem.toJson (.container items st sp sep)) := by
  simp only [CElem.toJson, parseContainer]
  rw [litField_rt p (by simp),
    optEnumField_rt p ContStyleT.toStr st contStyle_mem (by simp),
    optEnumField_rt p SpacingT.toStr sp spacing_mem (by simp),
    optBoolField_rt p sep (by simp)]
  simp [hitems, mergeF, Except.map]

theorem parseColumnSet_rt (p : List PathItem) (cols : CColList)
    (sp : Option SpacingT) (sep : Option Bool)
    (hcols : parseColumnList (p ++ [.key "columns"]) 0 cols.toJsonList =
      .ok cols.toJsonList) :
    parseColumnSet p (CElem.toJson (.columnSet cols sp sep)) =
      .ok (CElem.toJson (.columnSet cols sp sep)) := by
  simp only [CElem.toJson, parseColumnSet]
  rw [litField_rt p (by simp),
    optEnumField_rt p SpacingT.toStr sp spacing_mem (by simp),
    optBoolField_rt p sep (by simp)]
  simp [hcols, mergeF, Except.map]

theorem parseColumn_rt (p : List PathItem) (w : Option WidthT)
    (items : Option CElemList) (va : Option VAlignT) (sp : Option SpacingT)
    (hitems : ∀ l, items = some l →
      parseElemList (p ++ [.key "items"]) 0 l.toJsonList = .ok l.toJsonList) :
    parseColumn p (CCol.toJson (.mk w items va sp)) =
      .ok (CCol.toJson (.mk w items va sp)) := by
  cases items with
  | none =>
    simp only [CCol.toJson, parseColumn]
    rw [litField_rt p (by simp),
      optStrNumField_rt p w (by simp),
      optEnumField_rt p VAlignT.toStr va vAlign_mem (by simp),
      optEnumField_rt p SpacingT.toStr sp spacing_mem (by simp)]
    split
    next xs heq => simp at heq
    next j heq hne => simp at hne
    next heq => simp [mergeF, Except.map, optJ]
  | some l =>
    simp only [CCol.toJson, parseColumn]
    rw [litField_rt p (by simp),
      optStrNumField_rt p w (by simp),
      optEnumField_rt p VAlignT.toStr va vAlign_mem (by simp),
      optEnumField_rt p SpacingT.toStr sp spacing_mem (by simp)]
    split
    next xs heq =>
      simp at heq
      subst heq
      simp [hitems l rfl, mergeF, Except.map, optJ]
    next j heq hne => simp at hne; exact absurd hne.symm (heq _)
    next heq => simp at heq

/-! ## The round-trip induction over typed card elements -/

mutual

theorem elem_rt (e : CElem) (hw : e.wf = true) (p : List PathItem) :
    parseCardElement p e.toJson = .ok e.toJson := by
  cases e with
  | textBlock t w sz c wr sub ml ha sp sep =>
    exact parseCardElement_ok1 (parseTextBlock_rt p t w sz c wr sub ml ha sp sep)
  | image u alt sz st ha w h =>
    have hu : isValidUrl u = true := by simpa [CElem.wf] using hw
    refine parseCardElement_ok2 ?_ (parseImage_rt p u alt sz st ha w h hu)
    simp only [CElem.toJson]
    exact parseTextBlock_wrongType (t := "Image") p (by simp) (by decide)
  | factSet facts sp sep =>
    have hlen : facts.length <= 10 := by simpa [CElem.wf] using hw
    refine parseCardElement_ok3 ?_ ?_ (parseFactSet_rt p facts sp sep hlen) <;>
      simp only [CElem.toJson]
    · exact parseTextBlock_wrongType (t := "FactSet") p (by simp) (by decide)
    · exact parseImage_wrongType (t := "FactSet") p (by simp) (by decide)
  | columnSet cols sp sep =>
    have hcols := colList_rt cols (by simpa [CElem.wf] using hw)
      (p ++ [.key "columns"]) 0
    refine parseCardElement_ok4 ?_ ?_ ?_ (parseColumnSet_rt p cols sp sep hcols) <;>
      simp only [CElem.toJson]
    · exact parseTextBlock_wrongType (t := "ColumnSet") p (by simp) (by decide)
    · exact parseImage_wrongType (t := "ColumnSet") p (by simp) (by decide)
    · exact parseFactSet_wrongType (t := "ColumnSet") p (by simp) (by decide)
  | container items st sp sep =>
    have hitems := elemList_rt items (by simpa [CElem.wf] using hw)
      (p ++ [.key "items"]) 0
    refine parseCardElement_ok5 ?_ ?_ ?_ ?_
      (parseContainer_rt p items st sp sep hitems) <;>
      simp only [CElem.toJson]
    · exact parseTextBlock_wrongType (t := "Container") p (by simp) (by decide)
    · exact parseImage_wrongType (t := "Container") p (by simp) (by decide)
    · exact parseFactSet_wrongType (t := "Container") p (by simp) (by decide)
    · exact parseColumnSet_wrongType (t := "Container") p (by simp) (by decide)
  | actionSet as =>
    refine parseCardElement_ok6 ?_ ?_ ?_ ?_ ?_ (parseActionSet_rt p as) <;>
      simp only [CElem.toJson]
    · exact parseTextBlock_wrongType (t := "ActionSet") p (by simp) (by decide)
    · exact parseImage_wrongType (t := "ActionSet") p (by simp) (by decide)
    · exact parseFactSet_wrongType (t := "ActionSet") p (by simp) (by decide)
    · exact parseColumnSet_wrongType (t := "ActionSet") p (by simp) (by decide)
    · exact parseContainer_wrongType (t := "ActionSet") p (by simp) (by decide)

theorem col_rt (c : CCol) (hw : c.wf = true) (p : List PathItem) :
    parseColumn p c.toJson = .ok c.toJson := by
  cases c with
  | mk w items va sp =>
    refine parseColumn_rt p w items va sp ?_
    intro l hl
    subst hl
    exact elemList_rt l (by simpa [CCol.wf] using hw) (p ++ [.key "items"]) 0

theorem elemList_rt (l : CElemList) (hw : l.wf = true) (p : List PathItem)
    (i : Nat) : parseElemList p i l.toJsonList = .ok l.toJsonList := by
  cases l with
  | nil => simp [CElemList.toJsonList, parseElemList]
  | cons e rest =>
    have hwe : e.wf = true := by
      have := hw; simp [CElemList.wf] at this; exact this.1
    have hwr : rest.wf = true := by
      have := hw; simp [CElemList.wf] at this; exact this.2
    have h1 := elem_rt e hwe (p ++ [.idx i])
    have h2 := elemList_rt rest hwr p (i + 1)
    simp [CElemList.toJsonList, parseElemList, h1, h2, mergeL]

theorem colList_rt (l : CColList) (hw : l.wf = true) (p : List PathItem)
    (i : Nat) : parseColumnList p i l.toJsonList = .ok l.toJsonList := by
  cases l with
  | nil => simp [CColList.toJsonList, parseColumnList]
  | cons c rest =>
    have hwc : c.wf = true := by
      have := hw; simp [CColList.wf] at this; exact this.1
    have hwr : rest.wf = true := by
      have := hw; simp [CColList.wf] at this; exact this.2
    have h1 := col_rt c hwc (p ++ [.idx i])
    have h2 := colList_rt rest hwr p (i + 1)
    simp [CColList.toJsonList, parseColumnList, h1, h2, mergeL]

end

/-! ## The card-level round trip -/

@[simp] theorem length_toJsonList : ∀ l : CElemList,
    l.toJsonList.length = l.length
  | .nil => rfl
  | .cons e rest => by
      simp [CElemList.toJsonList, CElemList.length, length_toJsonList rest]
      omega

theorem parseAdaptiveCard_rt (c : CardT) (hw : c.wf = true)
    (p : List PathItem) :
    parseAdaptiveCard p c.toJson = .ok c.withDefaults.toJson := by
  obtain ⟨ver, body, acts, sch⟩ := c
  have hlen : body.length ≤ 50 := by
    have := hw; simp [CardT.wf] at this; exact this.1
  have hwb : body.wf = true := by
    have := hw; simp [CardT.wf] at this; exact this.2
  have hbody := elemList_rt body hwb (p ++ [.key "body"]) 0
  have hn : ¬ (50 < body.toJsonList.length) := by simp; omega
  have hn2 : ¬ (50 < body.length) := by omega
  cases acts with
  | none =>
    simp only [CardT.toJson, CardT.withDefaults, parseAdaptiveCard]
    rw [litField_rt p (by simp),
      defStrField_rt p ver (by simp),
      optStrField_rt p sch (by simp)]
    simp [hbody, arrayMaxField, hn, hn2, mergeF, Except.map]
    simp [optJ]
  | some as =>
    simp only [CardT.toJson, CardT.withDefaults, parseAdaptiveCard]
    rw [litField_rt p (by simp),
      defStrField_rt p ver (by simp),
      optStrField_rt p sch (by simp)]
    simp [hbody, arrayMaxField, hn, hn2, mergeF, Except.map]
    simp [optJ]

/-! ## Error naming toolkit -/

@[simp] theorem mentions_simple (p q : List PathItem) (c : String) :
    Issue.mentions p (.simple q c) = decide (q = p) := by
  simp [Issue.mentions]

@[simp] theorem mentionsList_nil (p : List PathItem) :
    mentionsList p [] = false := by simp [mentionsList]

@[simp] theorem mentionsList_cons (p : List PathItem) (i : Issue)
    (rest : List Issue) :
    mentionsList p (i :: rest) = (Issue.mentions p i || mentionsList p rest) := by
  simp [mentionsList]

@[simp] theorem mentionsList_append (p : List PathItem) (a b : List Issue) :
    mentionsList p (a ++ b) = (mentionsList p a || mentionsList p b) := by
  induction a with
  | nil => simp
  | cons i rest ih => simp [ih, Bool.or_assoc]

@[simp] theorem errNames_append (es fs : List Issue) (p : List PathItem) :
    errNames (es ++ fs) p = (errNames es p || errNames fs p) := by
  simp [errNames]

theorem mergeF_err_left_names {x : FRes} {es : List Issue}
    {q : List PathItem} (hx : x = .error es) (hn : errNames es q = true)
    (y : FRes) : ∃ e, mergeF x y = .error e ∧ errNames e q = true := by
  subst hx
  cases y with
  | error b => exact ⟨es ++ b, rfl, by simp [hn]⟩
  | ok b => exact ⟨es, rfl, hn⟩

theorem mergeF_err_right_names (x : FRes) {y : FRes} {es : List Issue}
    {q : List PathItem} (hy : y = .error es) (hn : errNames es q = true) :
    ∃ e, mergeF x y = .error e ∧ errNames e q = true := by
  subst hy
  cases x with
  | error a => exact ⟨a ++ es, rfl, by simp [hn]⟩
  | ok a => exact ⟨es, rfl, hn⟩

theorem arrayMaxField_too_big (p : List PathItem) (k : String)
    (maxLen len : Nat) (elems : Except (List Issue) (List Json))
    (h : maxLen < len) :
    ∃ es, arrayMaxField p k maxLen len elems = .error es ∧
      errNames es (p ++ [.key k]) = true := by
  cases elems with
  | ok ys =>
    refine ⟨[.simple (p ++ [.key k]) "too_big"], ?_, ?_⟩
    · simp [arrayMaxField, h]
    · simp [errNames]
  | error bs =>
    refine ⟨.simple (p ++ [.key k]) "too_big" :: bs, ?_, ?_⟩
    · simp [arrayMaxField, h]
    · simp [errNames]

/-! ## Failure lemmas for the bound and URL claims -/

theorem parseAdaptiveCard_body_too_big {fs : List (String × Json)}
    {xs : List Json} (p : List PathItem)
    (h : lookupField fs "body" = some (.arr xs)) (hlen : 50 < xs.length) :
    ∃ es, parseAdaptiveCard p (.obj fs) = .error es ∧
      errNames es (p ++ [.key "body"]) = true := by
  simp only [parseAdaptiveCard, h]
  obtain ⟨es, hes, hn⟩ := arrayMaxField_too_big p "body" 50 xs.length
    (parseElemList (p ++ [.key "body"]) 0 xs) hlen
  obtain ⟨e1, he1, hn1⟩ := mergeF_err_left_names hes hn
    (mergeF (match lookupField fs "actions" with
             | some (.arr ys) =>
                 (parseActionList (p ++ [.key "actions"]) 0 ys).map
                   (fun zs => [("actions", Json.arr zs)])
             | some _ => .error (invalidType (p ++ [.key "actions"]))
             | none => .ok [])
      (optStrField p fs "$schema"))
  obtain ⟨e2, he2, hn2⟩ := mergeF_err_right_names
    (defStrField p fs "version" "1.4") he1 hn1
  obtain ⟨e3, he3, hn3⟩ := mergeF_err_right_names
    (litField p fs "type" "AdaptiveCard") he2 hn2
  refine ⟨e3, ?_, hn3⟩
  rw [he3]
  rfl

theorem parseFactSet_facts_too_big {fs : List (String × Json)}
    {xs : List Json} (p : List PathItem)
    (h : lookupField fs "facts" = some (.arr xs)) (hlen : 10 < xs.length) :
    ∃ es, parseFactSet p (.obj fs) = .error es ∧
      errNames es (p ++ [.key "facts"]) = true := by
  simp only [parseFactSet]
  have hf : ∃ es, factsField p fs = .error es ∧
      errNames es (p ++ [.key "facts"]) = true := by
    simp only [factsField, h]
    exact arrayMaxField_too_big p "facts" 10 xs.length
      (parseFactList (p ++ [.key "facts"]) 0 xs) hlen
  obtain ⟨es, hes, hn⟩ := hf
  obtain ⟨e1, he1, hn1⟩ := mergeF_err_left_names hes hn
    (mergeF (optEnumField p fs "spacing" spacingVals)
      (optBoolField p fs "separator"))
  obtain ⟨e2, he2, hn2⟩ := mergeF_err_right_names
    (litField p fs "type" "FactSet") he1 hn1
  refine ⟨e2, ?_, hn2⟩
  rw [he2]
  rfl

theorem parseImage_bad_url {fs : List (String × Json)} {u : String}
    (p : List PathItem) (h : lookupField fs "url" = some (.str u))
    (hu : isValidUrl u = false) :
    ∃ es, parseImage p (.obj fs) = .error es ∧
      errNames es (p ++ [.key "url"]) = true := by
  simp only [parseImage]
  have hf : urlField p fs "url" =
      .error [.simple (p ++ [.key "url"]) "invalid_string"] := by
    simp [urlField, h, hu]
  obtain ⟨e1, he1, hn1⟩ := mergeF_err_left_names (q := p ++ [.key "url"]) hf
    (by simp [errNames])
    (mergeF (optStrField p fs "altText")
      (mergeF (optEnumField p fs "size" imgSizeVals)
        (mergeF (optEnumField p fs "style" imgStyleVals)
          (mergeF (optEnumField p fs "horizontalAlignment" hAlignVals)
            (mergeF (optStrField p fs "width")
              (optStrField p fs "height"))))))
  obtain ⟨e2, he2, hn2⟩ := mergeF_err_right_names
    (litField p fs "type" "Image") he1 hn1
  refine ⟨e2, ?_, hn2⟩
  rw [he2]
  rfl

/-! ## Post-rich-message request lemmas -/

theorem postRich_refine_fails {fs : List (String × Json)}
    (htext : lookupField fs "text" = none ∨
      lookupField fs "text" = some (.str ""))
    (hcard : lookupField fs "card" = none)
    (hthread : lookupField fs "thread_id" = none ∨
      ∃ s, lookupField fs "thread_id" = some (.str s)) :
    parsePostRichMessageArgs (.obj fs) =
      .error [.simple [.key "text", .key "card"] "custom"] := by
  simp only [parsePostRichMessageArgs, hcard]
  rcases htext with ht | ht
  · rcases hthread with h | ⟨s, h⟩
    · rw [optStrField_rt [] (o := none) (by simp [ht]),
        optStrField_rt [] (o := none) (by simp [h])]
      simp [mergeF, richRefineHolds, optJ]
    · rw [optStrField_rt [] (o := none) (by simp [ht]),
        optStrField_rt [] (o := some s) (by simp [h])]
      simp [mergeF, richRefineHolds, optJ]
  · rcases hthread with h | ⟨s, h⟩
    · rw [optStrField_rt [] (o := some "") (by simp [ht]),
        optStrField_rt [] (o := none) (by simp [h])]
      simp [mergeF, richRefineHolds, optJ]
    · rw [optStrField_rt [] (o := some "") (by simp [ht]),
        optStrField_rt [] (o := some s) (by simp [h])]
      simp [mergeF, richRefineHolds, optJ]

theorem postRich_text_ok (s : String) (hs : s ≠ "") :
    parsePostRichMessageArgs (.obj [("text", .str s)]) =
      .ok (.obj [("text", .str s)]) := by
  simp [parsePostRichMessageArgs, optStrField, mergeF, richRefineHolds, hs]

theorem postRich_card_ok (c : CardT) (hw : c.wf = true) :
    parsePostRichMessageArgs (.obj [("card", c.toJson)]) =
      .ok (.obj [("card", c.withDefaults.toJson)]) := by
  simp [parsePostRichMessageArgs, optStrField, mergeF, richRefineHolds,
    parseAdaptiveCard_rt c hw, Except.map]

theorem postRich_empty_text_with_card (c : CardT) (hw : c.wf = true) :
    parsePostRichMessageArgs (.obj [("text", .str ""), ("card", c.toJson)]) =
      .ok (.obj [("text", .str ""), ("card", c.withDefaults.toJson)]) := by
  simp [parsePostRichMessageArgs, optStrField, mergeF, richRefineHolds,
    parseAdaptiveCard_rt c hw, Except.map]

/-! ## Replicated-list well-formedness -/

theorem repElems_wf (n : Nat) (e : CElem) (he : e.wf = true) :
    (repElems n e).wf = true := by
  induction n with
  | zero => rfl
  | succ m ih => simp [repElems, CElemList.wf, he, ih]

theorem repCols_wf (n : Nat) (c : CCol) (hc : c.wf = true) :
    (repCols n c).wf = true := by
  induction n with
  | zero => rfl
  | succ m ih => simp [repCols, CColList.wf, hc, ih]

theorem unboundedCard_wf (n : Nat) : (unboundedCard n).wf = true := by
  have h1 : (repElems n sampleTextBlock).wf = true :=
    repElems_wf n sampleTextBlock (by rfl)
  have h2 : (repCols n (.mk none (some (repElems n sampleTextBlock))
      none none)).wf = true :=
    repCols_wf n _ (by simp [CCol.wf, h1])
  simp [unboundedCard, CardT.wf, CElemList.length, CElemList.wf, CElem.wf,
    h1, h2]

/-! ## Token broker helper lemmas -/

theorem getToken_miss_eq {now : Int} {cache : Option TokenCache}
    (appId appPassword : Option String) (resp : TokenHttpResponse)
    (hmiss : cacheFresh now cache = false) :
    getBotConnectorToken now cache appId appPassword resp =
      tokenExchange now cache appId appPassword resp := by
  cases cache with
  | none => rfl
  | some tc =>
    simp [cacheFresh] at hmiss
    simp [getBotConnectorToken, hmiss]

/-! ## Claim theorems -/

/-- C1: on every `getBotConnectorToken` call with both credentials
configured: when the expiry of a cached token is more than 5 minutes after
`now`, the cached token is returned unchanged with zero network calls;
otherwise exactly one exchange call is made, and on a successful response
the cache is replaced with the new token. -/
theorem getToken_cache_policy (now : Int) (cache : Option TokenCache)
    (appId appPassword : Option String) (resp : TokenHttpResponse)
    (ha : jsFalsy appId = false) (hp : jsFalsy appPassword = false) :
    (∀ tc, cache = some tc → now + 5 * 60 * 1000 < tc.expiresAt →
      getBotConnectorToken now cache appId appPassword resp =
        ⟨.ok tc.token, some tc, 0, none⟩) ∧
    (cacheFresh now cache = false →
      (getBotConnectorToken now cache appId appPassword resp).calls = 1 ∧
      (∀ t e, resp = .okParsed (some t) (some e) → t ≠ "" →
        getBotConnectorToken now cache appId appPassword resp =
          ⟨.ok t, some ⟨t, now + e * 1000⟩, 1, some tokenUrl⟩)) := by
  constructor
  · intro tc hc hfresh
    subst hc
    have h300 : now + 300000 < tc.expiresAt := by omega
    simp [getBotConnectorToken, h300]
  · intro hmiss
    rw [getToken_miss_eq appId appPassword resp hmiss]
    constructor
    · cases resp with
      | failure st b => simp [tokenExchange, ha, hp]
      | okUnparseable => simp [tokenExchange, ha, hp]
      | okParsed tok exp =>
        cases tok <;> cases exp <;> simp [tokenExchange, ha, hp] <;>
          split <;> rfl
    · intro t e hr ht
      subst hr
      simp [tokenExchange, ha, hp, ht]

/-- C1 witness: a fresh cached token is returned unchanged with zero
calls; with an empty cache one exchange happens and the cache is
replaced. -/
theorem getToken_cache_policy_witness :
    getBotConnectorToken 0 (some ⟨"tok", 600000⟩) (some "id") (some "pw")
      (.okParsed (some "new") (some 3600)) =
      ⟨.ok "tok", some ⟨"tok", 600000⟩, 0, none⟩ ∧
    getBotConnectorToken 0 none (some "id") (some "pw")
      (.okParsed (some "new") (some 3600)) =
      ⟨.ok "new", some ⟨"new", 3600000⟩, 1, some tokenUrl⟩ := by
  constructor
  · exact (getToken_cache_policy 0 (some ⟨"tok", 600000⟩) (some "id")
      (some "pw") (.okParsed (some "new") (some 3600)) (by decide)
      (by decide)).1 ⟨"tok", 600000⟩ rfl (by decide)
  · exact ((getToken_cache_policy 0 none (some "id") (some "pw")
      (.okParsed (some "new") (some 3600)) (by decide) (by decide)).2
      rfl).2 "new" 3600 rfl (by decide)

/-- C2: on every exchange-performing `getBotConnectorToken` call: a non-ok
HTTP status fails with the request-failed error carrying the status and
response text; an unparseable or structurally invalid success body fails
with the invalid-response error; and in every failure case the cache is
left exactly as it was and exactly one call was made. -/
theorem getToken_failure_modes (now : Int) (cache : Option TokenCache)
    (appId appPassword : Option String) (resp : TokenHttpResponse)
    (hmiss : cacheFresh now cache = false)
    (ha : jsFalsy appId = false) (hp : jsFalsy appPassword = false) :
    (∀ st b, resp = .failure st b →
      getBotConnectorToken now cache appId appPassword resp =
        ⟨.error (.tokenRequestFailed st b), cache, 1, some tokenUrl⟩) ∧
    (resp = .okUnparseable →
      getBotConnectorToken now cache appId appPassword resp =
        ⟨.error (.invalidTokenResponse true), cache, 1, some tokenUrl⟩) ∧
    (∀ tok exp, resp = .okParsed tok exp →
      (jsFalsy tok = true ∨ exp = none) →
      getBotConnectorToken now cache appId appPassword resp =
        ⟨.error (.invalidTokenResponse false), cache, 1, some tokenUrl⟩) := by
  rw [getToken_miss_eq appId appPassword resp hmiss]
  refine ⟨?_, ?_, ?_⟩
  · intro st b hr
    subst hr
    simp [tokenExchange, ha, hp]
  · intro hr
    subst hr
    simp [tokenExchange, ha, hp]
  · intro tok exp hr hbad
    subst hr
    cases tok with
    | none => cases exp <;> simp [tokenExchange, ha, hp]
    | some t =>
      cases exp with
      | none => simp [tokenExchange, ha, hp]
      | some e =>
        rcases hbad with hb | hb
        · simp [jsFalsy] at hb
          simp [tokenExchange, ha, hp, hb]
        · exact absurd hb (by simp)

/-- C2 witness: a 401 from the token endpoint fails with the
request-failed error and leaves the previous cache entry in place. -/
theorem getToken_failure_modes_witness :
    getBotConnectorToken 0 (some ⟨"old", 100⟩) (some "id") (some "pw")
      (.failure 401 "denied") =
      ⟨.error (.tokenRequestFailed 401 "denied"), some ⟨"old", 100⟩, 1,
        some tokenUrl⟩ := by
  exact (getToken_failure_modes 0 (some ⟨"old", 100⟩) (some "id") (some "pw")
    (.failure 401 "denied") (by decide) (by decide) (by decide)).1
    401 "denied" rfl

/-- C3 counterexample: with both credentials absent but a fresh cached
token, `getBotConnectorToken` returns the cached token instead of failing
with the missing-credentials error — the cache check runs before the
credentials check. -/
theorem getToken_missing_creds_counterexample :
    (getBotConnectorToken 0 (some ⟨"cached", 600000⟩) none none
      (.failure 500 "x")).result = .ok "cached" ∧
    (getBotConnectorToken 0 (some ⟨"cached", 600000⟩) none none
      (.failure 500 "x")).result ≠ .error .missingCredentials ∧
    (getBotConnectorToken 0 (some ⟨"cached", 600000⟩) none none
      (.failure 500 "x")).calls = 0 := by decide

/-- C3 (amended): on a cache miss (no cached token, or expiry within the
5-minute margin), an absent client identifier or client secret fails
immediately with the missing-credentials error, with no network call and
the cache unchanged; a fresh cached token is returned without consulting
the credentials. -/
theorem getToken_missing_creds (now : Int) (cache : Option TokenCache)
    (appId appPassword : Option String) (resp : TokenHttpResponse)
    (hmiss : cacheFresh now cache = false)
    (hcred : jsFalsy appId = true ∨ jsFalsy appPassword = true) :
    getBotConnectorToken now cache appId appPassword resp =
      ⟨.error .missingCredentials, cache, 0, none⟩ := by
  rw [getToken_miss_eq appId appPassword resp hmiss]
  rcases hcred with h | h <;> simp [tokenExchange, h]

/-- C3 witness: stale cache and a missing client id fail with the
missing-credentials error and zero network calls. -/
theorem getToken_missing_creds_witness :
    getBotConnectorToken 0 none none (some "pw") (.failure 1 "") =
      ⟨.error .missingCredentials, none, 0, none⟩ :=
  getToken_missing_creds 0 none none (some "pw") (.failure 1 "") (by decide)
    (Or.inl (by decide))

/-- C4: the token endpoint of the source is a constant — every network
call `getBotConnectorToken` makes goes to the default multi-tenant
`botframework.com` endpoint, while the tenant-substituted endpoint of the spec
differs from it whenever a tenant is configured. -/
theorem tokenUrl_ignores_tenant :
    (∀ (now : Int) (cache : Option TokenCache)
      (appId appPassword : Option String) (resp : TokenHttpResponse),
      (getBotConnectorToken now cache appId appPassword resp).urlCalled = none ∨
      (getBotConnectorToken now cache appId appPassword resp).urlCalled =
        some tokenUrl) ∧
    specTokenUrl none = tokenUrl ∧
    specTokenUrl (some "contoso.onmicrosoft.com") ≠ tokenUrl := by
  refine ⟨?_, by decide, by decide⟩
  have hex : ∀ (now : Int) (cache : Option TokenCache)
      (a pw : Option String) (r : TokenHttpResponse),
      (tokenExchange now cache a pw r).urlCalled = none ∨
      (tokenExchange now cache a pw r).urlCalled = some tokenUrl := by
    intro now cache a pw r
    by_cases hc : (jsFalsy a || jsFalsy pw) = true
    · left
      simp [tokenExchange, hc]
    · cases r with
      | failure st b => right; simp [tokenExchange, hc]
      | okUnparseable => right; simp [tokenExchange, hc]
      | okParsed tok exp =>
        right
        cases tok <;> cases exp <;> simp [tokenExchange, hc] <;>
          split <;> rfl
  intro now cache a pw r
  cases cache with
  | none => exact hex now none a pw r
  | some tc =>
    by_cases hf : now + 5 * 60 * 1000 < tc.expiresAt
    · left
      have h300 : now + 300000 < tc.expiresAt := by omega
      simp [getBotConnectorToken, h300]
    · have h300 : ¬ (now + 300000 < tc.expiresAt) := by omega
      have := hex now (some tc) a pw r
      simpa [getBotConnectorToken, h300] using this

/-- C5 counterexample: a text string alone being present does not always
make validation succeed — the empty string is falsy in the refinement, so
`\x7btext: ""\x7d` with no card is rejected (naming both fields). -/
theorem postRich_text_alone_counterexample :
    parsePostRichMessageArgs (.obj [("text", Json.str "")]) =
      .error [.simple [.key "text", .key "card"] "custom"] :=
  postRich_refine_fails (Or.inr rfl) rfl (Or.inl rfl)

/-- C5 (amended): when both the text and card fields are absent (and the
remaining field is well-typed), validation fails with one rejection whose
path names both fields; a nonempty text string alone succeeds; a valid
card alone succeeds. -/
theorem postRich_require_one_of :
    (∀ fs : List (String × Json), lookupField fs "text" = none →
      lookupField fs "card" = none →
      (lookupField fs "thread_id" = none ∨
        ∃ s, lookupField fs "thread_id" = some (.str s)) →
      parsePostRichMessageArgs (.obj fs) =
        .error [.simple [.key "text", .key "card"] "custom"]) ∧
    (∀ s : String, s ≠ "" →
      parsePostRichMessageArgs (.obj [("text", .str s)]) =
        .ok (.obj [("text", .str s)])) ∧
    (∀ c : CardT, c.wf = true →
      parsePostRichMessageArgs (.obj [("card", c.toJson)]) =
        .ok (.obj [("card", c.withDefaults.toJson)])) :=
  ⟨fun _ h1 h2 h3 => postRich_refine_fails (Or.inl h1) h2 h3,
    postRich_text_ok, postRich_card_ok⟩

/-- C5 witness: the empty object is rejected naming both fields;
`\x7btext: "ok"\x7d` and `\x7bcard: minimalCard\x7d` are accepted. -/
theorem postRich_require_one_of_witness :
    parsePostRichMessageArgs (.obj []) =
      .error [.simple [.key "text", .key "card"] "custom"] ∧
    parsePostRichMessageArgs (.obj [("text", Json.str "ok")]) =
      .ok (.obj [("text", Json.str "ok")]) ∧
    parsePostRichMessageArgs (.obj [("card", minimalCard.toJson)]) =
      .ok (.obj [("card", minimalCard.withDefaults.toJson)]) :=
  ⟨postRich_require_one_of.1 [] rfl rfl (Or.inl rfl),
   postRich_require_one_of.2.1 "ok" (by decide),
   postRich_require_one_of.2.2 minimalCard (by decide)⟩

/-- C6: the only two array-length bounds are at the top level — a `body`
longer than 50 fails naming `body`, a `facts` array longer than 10 fails
naming `facts` — while the nested arrays (`Container.items`,
`ColumnSet.columns`, `Column.items`) validate at every length. -/
theorem card_length_bounds :
    (∀ (p : List PathItem) (fs : List (String × Json)) (xs : List Json),
      lookupField fs "body" = some (.arr xs) → 50 < xs.length →
      ∃ es, parseAdaptiveCard p (.obj fs) = .error es ∧
        errNames es (p ++ [.key "body"]) = true) ∧
    (∀ (p : List PathItem) (fs : List (String × Json)) (xs : List Json),
      lookupField fs "facts" = some (.arr xs) → 10 < xs.length →
      ∃ es, parseFactSet p (.obj fs) = .error es ∧
        errNames es (p ++ [.key "facts"]) = true) ∧
    (∀ n : Nat, parseAdaptiveCard [] (unboundedCard n).toJson =
      .ok (unboundedCard n).withDefaults.toJson) :=
  ⟨fun p _ _ h hl => parseAdaptiveCard_body_too_big p h hl,
   fun p _ _ h hl => parseFactSet_facts_too_big p h hl,
   fun n => parseAdaptiveCard_rt _ (unboundedCard_wf n) []⟩

/-- C6 witness: a 51-element `body` fails naming `body`, an 11-entry
`facts` fails naming `facts`, and nested arrays of length 100 validate. -/
theorem card_length_bounds_witness :
    (∃ es, parseAdaptiveCard []
        (.obj [("body", Json.arr (List.replicate 51 Json.null))]) =
        .error es ∧ errNames es [.key "body"] = true) ∧
    (∃ es, parseFactSet []
        (.obj [("type", Json.str "FactSet"),
          ("facts", Json.arr (List.replicate 11 Json.null))]) =
        .error es ∧ errNames es [.key "facts"] = true) ∧
    parseAdaptiveCard [] (unboundedCard 100).toJson =
      .ok (unboundedCard 100).withDefaults.toJson :=
  ⟨card_length_bounds.1 [] _ (List.replicate 51 Json.null) rfl (by simp),
   card_length_bounds.2.1 [] _ (List.replicate 11 Json.null) rfl (by simp),
   card_length_bounds.2.2 100⟩

/-- C7: every well-formed typed card document (body within its bound,
fact sets within theirs, image URLs valid, arbitrary nesting) validates
successfully, and the output is the input tree with defaults applied — a
missing `version` becomes `"1.4"` — with order and nesting preserved
exactly. -/
theorem card_roundtrip (c : CardT) (hw : c.wf = true) (p : List PathItem) :
    parseAdaptiveCard p c.toJson = .ok c.withDefaults.toJson :=
  parseAdaptiveCard_rt c hw p

/-- C7 witness: the deeply nested sample card (Container ≫ ColumnSet ≫
Columns ≫ Container ≫ TextBlock) is well-formed, validates, and its
missing version is defaulted to `"1.4"`. -/
theorem card_roundtrip_witness :
    nestedCard.wf = true ∧
    parseAdaptiveCard [] nestedCard.toJson =
      .ok nestedCard.withDefaults.toJson ∧
    nestedCard.withDefaults.version = some "1.4" :=
  ⟨by decide, card_roundtrip nestedCard (by decide) [], rfl⟩

/-- C8: every `Image` node whose `url` string is not a well-formed URL is
rejected with an issue naming the `url` field (so the malformed URL never
reaches the output), and `"not a url"` is such a string. -/
theorem image_url_validation :
    (∀ (p : List PathItem) (fs : List (String × Json)) (u : String),
      lookupField fs "url" = some (.str u) → isValidUrl u = false →
      ∃ es, parseImage p (.obj fs) = .error es ∧
        errNames es (p ++ [.key "url"]) = true) ∧
    isValidUrl "not a url" = false :=
  ⟨fun p _ u h hu => parseImage_bad_url p h hu, by decide⟩

/-- C8 witness: the image node with url `"not a url"` is rejected naming
`url`. -/
theorem image_url_validation_witness :
    ∃ es, parseImage []
      (.obj [("type", Json.str "Image"), ("url", Json.str "not a url")]) =
      .error es ∧ errNames es [.key "url"] = true :=
  image_url_validation.1 [] _ "not a url" rfl (by decide)

/-- C9: the post-rich-message validator treats an empty text string as
absent: `\x7btext: ""\x7d` with no card fails the require-one-of refinement
(naming both fields), while `\x7btext: "", card: <valid>\x7d` is accepted. -/
theorem postRich_empty_text_treated_absent :
    (∀ fs : List (String × Json),
      lookupField fs "text" = some (.str "") →
      lookupField fs "card" = none →
      (lookupField fs "thread_id" = none ∨
        ∃ s, lookupField fs "thread_id" = some (.str s)) →
      parsePostRichMessageArgs (.obj fs) =
        .error [.simple [.key "text", .key "card"] "custom"]) ∧
    (∀ c : CardT, c.wf = true →
      parsePostRichMessageArgs (.obj [("text", .str ""), ("card", c.toJson)]) =
        .ok (.obj [("text", .str ""), ("card", c.withDefaults.toJson)])) :=
  ⟨fun _ h1 h2 h3 => postRich_refine_fails (Or.inr h1) h2 h3,
   postRich_empty_text_with_card⟩

/-- C9 witness: `\x7btext: ""\x7d` is rejected naming both fields;
`\x7btext: "", card: minimalCard\x7d` is accepted. -/
theorem postRich_empty_text_treated_absent_witness :
    parsePostRichMessageArgs (.obj [("text", Json.str "")]) =
      .error [.simple [.key "text", .key "card"] "custom"] ∧
    parsePostRichMessageArgs
        (.obj [("text", Json.str ""), ("card", minimalCard.toJson)]) =
      .ok (.obj [("text", Json.str ""),
        ("card", minimalCard.withDefaults.toJson)]) :=
  ⟨postRich_empty_text_treated_absent.1 [("text", Json.str "")] rfl rfl
    (Or.inl rfl),
   postRich_empty_text_treated_absent.2 minimalCard (by decide)⟩

/-- C10: reply-target resolution — a nonempty `thread_id` argument wins;
an absent or empty argument falls back to the configured default; the
call is a thread reply (action text `Reply sent to thread`, thread-reply
URL) exactly when the resolved identifier is nonempty, and otherwise
posts a new activity to the conversation. -/
theorem thread_context_resolution (a c : Option String) (mt : MessageType)
    (su cid : String) :
    (∀ s, a = some s → s ≠ "" →
      (resolveThreadContext a c mt).replyToId = some s) ∧
    ((a = none ∨ a = some "") →
      (resolveThreadContext a c mt).replyToId = c) ∧
    ((resolveThreadContext a c mt).actionType = "Reply sent to thread" ↔
      jsTruthy (resolveThreadContext a c mt).replyToId = true) ∧
    (jsTruthy (resolveThreadContext a c mt).replyToId = false →
      activityUrl su cid (resolveThreadContext a c mt).replyToId =
        stripTrailingSlash su ++ "/v3/conversations/" ++
          encodeURIComponent cid ++ "/activities") ∧
    (∀ r, (resolveThreadContext a c mt).replyToId = some r → r ≠ "" →
      activityUrl su cid (resolveThreadContext a c mt).replyToId =
        stripTrailingSlash su ++ "/v3/conversations/" ++
          encodeURIComponent cid ++ "/activities/" ++
          encodeURIComponent r) := by
  refine ⟨?_, ?_, ?_, ?_, ?_⟩
  · intro s hs hne
    subst hs
    simp [resolveThreadContext, jsOrStr, jsTruthy, jsFalsy, hne]
  · intro h
    rcases h with h | h <;> subst h <;>
      simp [resolveThreadContext, jsOrStr, jsTruthy, jsFalsy]
  · by_cases ht : jsTruthy (jsOrStr a c) = true
    · simp [resolveThreadContext, ht]
    · simp only [Bool.not_eq_true] at ht
      cases mt <;> simp [resolveThreadContext, ht]
  · intro h
    simp [activityUrl, h]
  · intro r hr hne
    have ht : jsTruthy (some r) = true := by simp [jsTruthy, jsFalsy, hne]
    simp [activityUrl, hr, ht]

/-- C10 witness: a nonempty argument wins over the configured default; no
argument falls back to the default; empty in both places posts a new
activity. -/
theorem thread_context_resolution_witness :
    (resolveThreadContext (some "t1") (some "t2") .message).replyToId =
      some "t1" ∧
    (resolveThreadContext none (some "t2") .rich).replyToId = some "t2" ∧
    activityUrl "https://smba.example/" "19;abc"
        (resolveThreadContext (some "") none .message).replyToId =
      stripTrailingSlash "https://smba.example/" ++ "/v3/conversations/" ++
        encodeURIComponent "19;abc" ++ "/activities" :=
  ⟨(thread_context_resolution (some "t1") (some "t2") .message "x" "y").1
      "t1" rfl (by decide),
   (thread_context_resolution none (some "t2") .rich "x" "y").2.1
      (Or.inl rfl),
   (thread_context_resolution (some "") none .message "https://smba.example/"
      "19;abc").2.2.2.1 (by decide)⟩

end TeamsMcp
